import Mathlib

/-!
# Velocity-3D: the simulation loop of `script.js`

A shallow embedding of the per-frame simulation of `src/script.js`
(`Player.update`, the traffic update and the particle update of `animate`).

JavaScript numbers are modelled as exact rationals (`ℚ`).  Calls into the
three.js library that the physics does not compute itself (`Math.sin`,
`Math.cos`, `Vector3.applyMatrix4` on the car transform, and
`Box3.setFromObject` / `Box3.intersectsBox`) are parameters, collected in `Env`.
Rendering, audio and HUD sinks do not feed back into the simulated state and
are left out.
-/

namespace Velocity3D

/-! ## Data model -/

/-- A `THREE.Vector3`. -/
structure Vec3 where
  x : ℚ
  y : ℚ
  z : ℚ
deriving DecidableEq

/-- The method `Vector3.add`. -/
def Vec3.add (a b : Vec3) : Vec3 := ⟨a.x + b.x, a.y + b.y, a.z + b.z⟩

/-- The method `Vector3.multiplyScalar`. -/
def Vec3.multiplyScalar (a : Vec3) (k : ℚ) : Vec3 := ⟨a.x * k, a.y * k, a.z * k⟩

/-- The function `THREE.MathUtils.lerp` of the three.js library: linear interpolation. -/
def lerp (x y t : ℚ) : ℚ := (1 - t) * x + t * y

/-- The object `CONFIG` (script.js lines 10-19). -/
structure Config where
  acceleration : ℚ
  maxSpeed : ℚ
  nitroSpeed : ℚ
  friction : ℚ
  driftFriction : ℚ
  steering : ℚ
  trafficCount : ℕ
  roadWidth : ℚ

/-- The constant `CONFIG` with the values of the source. -/
def CONFIG : Config where
  acceleration := 0.025
  maxSpeed := 2.2
  nitroSpeed := 3.5
  friction := 0.98
  driftFriction := 0.95
  steering := 0.06
  trafficCount := 40
  roadWidth := 40

/-- The key map `this.keys`, read as truthy / falsy: `w` forward, `s` reverse, `a` left,
`d` right, `shift` nitro, `space` (the key `' '`) drift. -/
structure Keys where
  w : Bool
  s : Bool
  a : Bool
  d : Bool
  shift : Bool
  space : Bool
deriving DecidableEq

/-- The physics state of `Player` together with `container.position`. -/
structure Player where
  position : Vec3
  speed : ℚ
  steering : ℚ
  rotation : ℚ
  keys : Keys
deriving DecidableEq

/-- An entry of `traffic`: `mesh.position` and `speed`. -/
structure Car where
  position : Vec3
  speed : ℚ
deriving DecidableEq

/-- An entry of `particles`: the mesh (position, scale, material colour and opacity,
sphere radius), `life` and `velocity`. -/
structure Particle where
  position : Vec3
  scale : Vec3
  opacity : ℚ
  color : ℕ
  radius : ℚ
  life : ℚ
  velocity : Vec3
deriving DecidableEq

/-- The library functions the update calls: `Math.sin`, `Math.cos`, the map of a local offset
through `container.matrixWorld`, and the test
`new Box3().setFromObject(container).intersectsBox(new Box3().setFromObject(car.mesh))`. -/
structure Env where
  sin : ℚ → ℚ
  cos : ℚ → ℚ
  toWorld : Player → Vec3 → Vec3
  intersects : Player → Car → Bool

/-- The module-level mutable state: `player`, `traffic`, `particles`, `gameStarted`. -/
structure Game where
  player : Player
  traffic : List Car
  particles : List Particle
  gameStarted : Bool

/-! ## Particle system -/

/-- The object pushed by `spawnParticle`: life `1.0`, material opacity `0.8`, mesh scale `(1,1,1)`. -/
def newParticle (pos : Vec3) (color : ℕ) (scale : ℚ) (velocity : Vec3) : Particle where
  position := pos
  scale := ⟨1, 1, 1⟩
  opacity := 0.8
  color := color
  radius := scale
  life := 1.0
  velocity := velocity

/-- The function `spawnParticle` (lines 173-185): `particles.push(...)`. -/
def spawnParticle (particles : List Particle) (pos : Vec3) (color : ℕ) (scale : ℚ)
    (velocity : Vec3) : List Particle :=
  particles ++ [newParticle pos color scale velocity]

/-! ## Player.update -/

/-- The field `this.exhausts`, assigned once in the constructor. -/
def Player.exhausts : List Vec3 := [⟨0.8, 0.6, -2.5⟩, ⟨-0.8, 0.6, -2.5⟩]

/-- The state written by the constructor of `Player` (lines 237-241), the car at the origin. -/
def Player.init : Player where
  position := ⟨0, 0, 0⟩
  speed := 0
  steering := 0
  rotation := 0
  keys := ⟨false, false, false, false, false, false⟩

/-- The variable `targetSpeed` after lines 253-255. -/
def targetSpeed (keys : Keys) : ℚ :=
  let targetSpeed : ℚ := 0
  let targetSpeed := if keys.w then (if keys.shift then CONFIG.nitroSpeed else CONFIG.maxSpeed)
    else targetSpeed
  let targetSpeed := if keys.s then -CONFIG.maxSpeed / 2 else targetSpeed
  targetSpeed

/-- Step 1, acceleration (lines 252-261). -/
def Player.accelerate (p : Player) : Player :=
  if p.keys.w || p.keys.s then
    { p with speed := p.speed +
        (targetSpeed p.keys - p.speed) * (CONFIG.acceleration * (if p.keys.shift then 2 else 1)) }
  else
    { p with speed := p.speed * CONFIG.friction }

/-- Step 2, drift physics (lines 263-266). -/
def Player.drift (p : Player) : Player :=
  if p.keys.space then { p with speed := p.speed * CONFIG.driftFriction } else p

/-- Step 3, steering (lines 268-275). -/
def Player.steer (p : Player) : Player :=
  if |p.speed| > 0.1 then
    let turnAmt : ℚ := if p.keys.a then 1 else (if p.keys.d then -1 else 0)
    let steering := lerp p.steering (turnAmt * CONFIG.steering) 0.1
    { p with steering := steering, rotation := p.rotation + steering * (p.speed * 0.6) }
  else
    { p with steering := 0 }

/-- Step 4, position update (lines 277-279). -/
def Player.move (env : Env) (p : Player) : Player :=
  { p with position :=
      ⟨p.position.x + env.sin p.rotation * p.speed, p.position.y,
       p.position.z + env.cos p.rotation * p.speed⟩ }

/-- Steps 1 to 4 in order: the player as the particle and collision steps read it. -/
def Player.physics (env : Env) (p : Player) : Player :=
  (((p.accelerate).drift).steer).move env

/-- Step 6, particles (lines 292-303). -/
def Player.emit (env : Env) (p : Player) (particles : List Particle) : List Particle :=
  let particles :=
    if p.keys.shift = true ∧ |p.speed| > 0.5 then
      Player.exhausts.foldl
        (fun acc offset => spawnParticle acc (env.toWorld p offset) 0x00ffff 0.4 ⟨0, 0, 0⟩)
        particles
    else particles
  if p.keys.space = true ∧ |p.speed| > 1.0 then
    spawnParticle particles (env.toWorld p ⟨0, 0, -1.5⟩) 0xffffff 0.3 ⟨0, 0.1, 0⟩
  else particles

/-- The loop `traffic.forEach` of step 7 (lines 307-314): `hit` is the box test against the
`playerBox` computed before the loop; the result is the player speed and the traffic list. -/
def collideLoop (hit : Car → Bool) : ℚ → List Car → ℚ × List Car
  | speed, [] => (speed, [])
  | speed, car :: rest =>
    if hit car then
      let r := collideLoop hit (speed * (-0.5)) rest
      (r.1, { car with speed := 0 } :: r.2)
    else
      let r := collideLoop hit speed rest
      (r.1, car :: r.2)

/-- Step 7, collision with traffic (lines 305-314). -/
def Player.collide (env : Env) (p : Player) (traffic : List Car) : Player × List Car :=
  let r := collideLoop (env.intersects p) p.speed traffic
  ({ p with speed := r.1 }, r.2)

/-- The method `Player.update` (lines 247-329) on the simulated state. -/
def Player.update (env : Env) (g : Game) : Game :=
  let p := g.player.physics env
  let particles := p.emit env g.particles
  let r := p.collide env g.traffic
  { g with player := r.1, traffic := r.2, particles := particles }

/-! ## animate: traffic and particles -/

/-- The body of `traffic.forEach` in `animate` (lines 354-357). -/
def updateCar (t : Car) : Car :=
  let z := t.position.z + t.speed
  let z := if z > 2000 then -2000 else z
  { t with position := ⟨t.position.x, t.position.y, z⟩ }

/-- The traffic update of `animate`. -/
def updateTraffic (traffic : List Car) : List Car := traffic.map updateCar

/-- The per-particle mutation of lines 362-365: life, opacity, position, scale. -/
def Particle.tick (p : Particle) : Particle :=
  let p := { p with life := p.life - 0.05 }
  let p := { p with opacity := p.life }
  let p := { p with position := p.position.add p.velocity }
  let p := { p with scale := p.scale.multiplyScalar 0.95 }
  p

/-- One iteration of the particle loop at index `i` (lines 361-370); `none` is the
`TypeError` of reading `life` of `undefined` when `particles[i]` does not exist. -/
def advanceBody (i : ℕ) (particles : List Particle) : Option (List Particle) :=
  match particles[i]? with
  | none => none
  | some p =>
    let p := p.tick
    let particles := particles.set i p
    if p.life ≤ 0 then some (particles.eraseIdx i) else some particles

/-- The loop `for (let i = particles.length - 1; i >= 0; i--)` run for at most `fuel`
iterations.  The loop variable is kept as `i + 1` (so `0` means `i = -1`, the loop has
exited); the result is the loop variable and the array. -/
def advanceRun : ℕ → ℕ → List Particle → Option (ℕ × List Particle)
  | 0, i1, particles => some (i1, particles)
  | _ + 1, 0, particles => some (0, particles)
  | fuel + 1, i + 1, particles =>
    match advanceBody i particles with
    | none => none
    | some particles => advanceRun fuel i particles

/-- The particle update of `animate` (lines 359-371): the loop started at
`i = particles.length - 1` and run to its exit. -/
def advance (particles : List Particle) : Option (List Particle) :=
  (advanceRun particles.length particles.length particles).map Prod.snd

/-- The function `animate` (lines 347-387) on the simulated state: nothing is simulated
before the start button sets `gameStarted`. -/
def animate (env : Env) (g : Game) : Option Game :=
  if g.gameStarted then
    let g := Player.update env g
    let g := { g with traffic := updateTraffic g.traffic }
    match advance g.particles with
    | none => none
    | some particles => some { g with particles := particles }
  else some g


/-! ## Runs of the simulation -/

/-- What reaches the simulation around one frame: the key map left by the `keydown` /
`keyup` handlers, whether the start button was clicked, and the library behaviour. -/
structure Tick where
  keys : Keys
  start : Bool
  env : Env

/-- The event handlers (lines 243-244 and 335-344) applied before a frame. -/
def Game.input (g : Game) (t : Tick) : Game :=
  { g with player := { g.player with keys := t.keys }, gameStarted := g.gameStarted || t.start }

/-- A sequence of frames: `animate` once per tick, after that tick's events. -/
def runFrames : Game → List Tick → Option Game
  | g, [] => some g
  | g, t :: ts =>
    match animate t.env (g.input t) with
    | none => none
    | some g => runFrames g ts

/-- Consecutive runs of the particle update of `animate`, one per frame. -/
def advancePasses : ℕ → List Particle → Option (List Particle)
  | 0, particles => some particles
  | n + 1, particles =>
    match advance particles with
    | none => none
    | some particles => advancePasses n particles

/-- One call of `Player.update` inside a longer run: the key map, the library behaviour, and
the traffic and particle lists the call finds. -/
structure UpdateCall where
  keys : Keys
  env : Env
  traffic : List Car
  particles : List Particle

/-- A sequence of `Player.update` calls on one player. -/
def runUpdates : Player → List UpdateCall → Player
  | p, [] => p
  | p, c :: cs =>
    runUpdates
      (Player.update c.env ⟨{ p with keys := c.keys }, c.traffic, c.particles, true⟩).player cs

/-! ## Specification-side definitions -/

/-- The per-particle effect of one advance pass as the specification words it: life less the
fixed amount 0.05, opacity equal to the new life, position advanced by the velocity, scale
shrunk by the factor 0.95. -/
def Particle.aged (p : Particle) : Particle where
  position := p.position.add p.velocity
  scale := p.scale.multiplyScalar 0.95
  opacity := p.life - 0.05
  color := p.color
  radius := p.radius
  life := p.life - 0.05
  velocity := p.velocity

/-- One advance pass as the specification words it: age every particle once, then keep, in
order, those whose new life is above zero. -/
def advanceSpec (particles : List Particle) : List Particle :=
  (particles.map Particle.aged).filter (fun p => decide (0 < p.life))

/-- The pool invariant at the end of a frame: every particle is alive, and for each
`k ≤ 19` at most `3 * (19 - k)` particles have life above `k / 20`. -/
def PoolInv (l : List Particle) : Prop :=
  (∀ p ∈ l, 0 < p.life) ∧
  ∀ k : ℕ, k ≤ 19 → l.countP (fun p => decide ((k : ℚ) / 20 < p.life)) ≤ 3 * (19 - k)

/-! ## Concrete inputs -/

/-- A concrete environment: the car heads along `+z`, offsets are translated by the car
position, and a traffic car is hit when it is within 3 of the player in `x` and 5.5 in `z`. -/
def demoEnv : Env where
  sin := fun _ => 0
  cos := fun _ => 1
  toWorld := fun p v => p.position.add v
  intersects := fun p c =>
    decide (|p.position.x - c.position.x| ≤ 3 ∧ |p.position.z - c.position.z| ≤ 5.5)

/-- No key held. -/
def noKeys : Keys := ⟨false, false, false, false, false, false⟩

/-- A traffic car in lane `x = 10` at `z = 0`. -/
def carA : Car := ⟨⟨10, 1.5, 0⟩, 0.75⟩

/-- A traffic car in lane `x = 10` at `z = 2`, overlapping `carA`. -/
def carB : Car := ⟨⟨10, 1.5, 2⟩, 0.5⟩

/-- A traffic car in lane `x = -10`, far from the player. -/
def carFar : Car := ⟨⟨-10, 1.5, 900⟩, 1⟩

/-- A player in lane `x = 10` at `z = 0` coasting at speed 1. -/
def playerCoasting : Player := ⟨⟨10, 0, 0⟩, 1, 0, 0, noKeys⟩

/-- Forward and reverse held together, nitro not held. -/
def keysForwardReverse : Keys := ⟨true, true, false, false, false, false⟩

/-- A player at speed 0.2 steering left (key `a`), no other key held. -/
def playerSlowLeft : Player :=
  ⟨⟨10, 0, 0⟩, 0.2, 0, 0, ⟨false, false, true, false, false, false⟩⟩

/-- A player creeping at speed 0.05 with a steering angle left over from before. -/
def playerCreeping : Player :=
  ⟨⟨10, 0, 0⟩, 0.05, 0.03, 0, ⟨false, false, true, false, false, false⟩⟩

/-- A player at speed 2.0 with forward and nitro held. -/
def playerNitro : Player :=
  ⟨⟨10, 0, 0⟩, 2.0, 0, 0, ⟨true, false, false, false, true, false⟩⟩

/-! ## Helper lemmas -/

theorem collideLoop_speed (hit : Car → Bool) (speed : ℚ) (cars : List Car) :
    (collideLoop hit speed cars).1 = speed * (-0.5) ^ (cars.countP hit) := by
  induction cars generalizing speed with
  | nil => simp [collideLoop]
  | cons c rest ih =>
    by_cases h : hit c = true
    · simp [collideLoop, h, ih, pow_succ]; ring
    · simp [collideLoop, h, ih]

theorem collideLoop_cars (hit : Car → Bool) (speed : ℚ) (cars : List Car) :
    (collideLoop hit speed cars).2 =
      cars.map (fun c => if hit c then { c with speed := 0 } else c) := by
  induction cars generalizing speed with
  | nil => simp [collideLoop]
  | cons c rest ih =>
    by_cases h : hit c = true
    · simp [collideLoop, h, ih]
    · simp [collideLoop, h, ih]

theorem countP_eq_zero_of_no_hit (hit : Car → Bool) (cars : List Car)
    (h : ∀ c ∈ cars, hit c = false) : cars.countP hit = 0 := by
  rw [List.countP_eq_zero]
  intro c hc
  simp [h c hc]

theorem update_player_speed (env : Env) (g : Game) :
    (Player.update env g).player.speed =
      (g.player.physics env).speed *
        (-0.5) ^ (g.traffic.countP (env.intersects (g.player.physics env))) := by
  simp [Player.update, Player.collide, collideLoop_speed]

theorem update_player_steering (env : Env) (g : Game) :
    (Player.update env g).player.steering = (g.player.physics env).steering := by
  simp [Player.update, Player.collide]

theorem physics_speed (env : Env) (p : Player) :
    (p.physics env).speed = p.accelerate.drift.speed := by
  simp only [Player.physics, Player.move, Player.steer]
  split <;> rfl

theorem physics_steering (env : Env) (p : Player) :
    (p.physics env).steering = p.accelerate.drift.steer.steering := by
  simp [Player.physics, Player.move]

/-! ## C1: collision response -/

/-- C1 (as amended): the collision step leaves the player speed at `s * (-0.5) ^ k`, where `k`
is the number of intersecting agents, whatever the iteration order; with exactly one
intersecting agent that is `s * (-0.5)`.  Every intersecting agent ends with speed 0 and every
other agent is unchanged. -/
theorem collide_response (env : Env) (p : Player) (traffic : List Car) :
    (p.collide env traffic).1.speed =
        p.speed * (-0.5) ^ (traffic.countP (env.intersects p)) ∧
    (∀ traffic2 : List Car, traffic2.Perm traffic →
        (p.collide env traffic2).1.speed = (p.collide env traffic).1.speed) ∧
    (traffic.countP (env.intersects p) = 1 →
        (p.collide env traffic).1.speed = p.speed * (-0.5)) ∧
    (p.collide env traffic).2 =
        traffic.map (fun c => if env.intersects p c then { c with speed := 0 } else c) := by
  refine ⟨?_, ?_, ?_, ?_⟩
  · simp [Player.collide, collideLoop_speed]
  · intro traffic2 hperm
    simp [Player.collide, collideLoop_speed, hperm.countP_eq]
  · intro h1
    simp [Player.collide, collideLoop_speed, h1]
  · simp [Player.collide, collideLoop_cars]

/-- Witness for C1: swapping two intersecting agents gives the same player speed, and a
single intersecting agent gives `s * (-0.5)`. -/
theorem collide_response_witness :
    (playerCoasting.collide demoEnv [carB, carA]).1.speed =
        (playerCoasting.collide demoEnv [carA, carB]).1.speed ∧
    (playerCoasting.collide demoEnv [carA, carFar]).1.speed = playerCoasting.speed * (-0.5) :=
  ⟨(collide_response demoEnv playerCoasting [carA, carB]).2.1 [carB, carA]
      (List.Perm.swap carA carB []),
   (collide_response demoEnv playerCoasting [carA, carFar]).2.2.1
      (by norm_num [demoEnv, playerCoasting, carA, carFar, List.countP_cons, abs_le])⟩

/-- C1 fails as stated: with two intersecting agents and `s = 1` the collision step leaves
the player speed at `0.25`, not `1 * (-0.5)`. -/
theorem collide_two_agents_counterexample :
    demoEnv.intersects playerCoasting carA = true ∧
    demoEnv.intersects playerCoasting carB = true ∧
    (playerCoasting.collide demoEnv [carA, carB]).1.speed = 0.25 ∧
    (playerCoasting.collide demoEnv [carA, carB]).1.speed ≠ playerCoasting.speed * (-0.5) := by
  refine ⟨?_, ?_, ?_, ?_⟩ <;>
    norm_num [demoEnv, playerCoasting, carA, carB, Player.collide, collideLoop, abs_le]

/-! ## C2: target speed selection -/

/-- C2 (as amended): the target speed is `nitroSpeed` (3.5) under nitro and `maxSpeed` (2.2)
otherwise when forward is held and reverse is not; it is `-maxSpeed / 2` (-1.1) whenever
reverse is held, also together with forward; and the speed-approach step moves the speed
towards that target whenever forward or reverse is held. -/
theorem targetSpeed_selection (p : Player) :
    (p.keys.w = true → p.keys.s = false →
        targetSpeed p.keys = if p.keys.shift then 3.5 else 2.2) ∧
    (p.keys.s = true → targetSpeed p.keys = -1.1) ∧
    (p.keys.w = true ∨ p.keys.s = true →
        p.accelerate.speed = p.speed +
          (targetSpeed p.keys - p.speed) * (0.025 * (if p.keys.shift then 2 else 1))) := by
  refine ⟨?_, ?_, ?_⟩
  · intro hw hs
    simp [targetSpeed, CONFIG, hw, hs]
  · intro hs
    norm_num [targetSpeed, CONFIG, hs]
  · intro h
    have h2 : (p.keys.w || p.keys.s) = true := by
      rcases h with h | h <;> simp [h]
    simp [Player.accelerate, h2, CONFIG]

/-- Witness for C2: forward alone targets 2.2, reverse (with forward) targets -1.1, and the
approach step uses the target. -/
theorem targetSpeed_selection_witness :
    targetSpeed ⟨true, false, false, false, false, false⟩ = 2.2 ∧
    targetSpeed keysForwardReverse = -1.1 ∧
    ({ playerCoasting with keys := keysForwardReverse } : Player).accelerate.speed =
      1 + (targetSpeed keysForwardReverse - 1) * (0.025 * 1) :=
  ⟨by simpa using (targetSpeed_selection
        { playerCoasting with keys := ⟨true, false, false, false, false, false⟩ }).1 rfl rfl,
   (targetSpeed_selection { playerCoasting with keys := keysForwardReverse }).2.1 rfl,
   by simpa [playerCoasting, keysForwardReverse] using
     (targetSpeed_selection { playerCoasting with keys := keysForwardReverse }).2.2
       (Or.inl rfl)⟩

/-- C2 fails as stated: with forward and reverse both held (nitro not held) the target speed
is -1.1, not `maxSpeed` = 2.2, and the approach step moves the speed towards -1.1. -/
theorem targetSpeed_forward_reverse_counterexample :
    keysForwardReverse.w = true ∧
    targetSpeed keysForwardReverse = -1.1 ∧
    targetSpeed keysForwardReverse ≠ CONFIG.maxSpeed ∧
    ({ playerCoasting with keys := keysForwardReverse } : Player).accelerate.speed =
      1 + (-1.1 - 1) * 0.025 := by
  refine ⟨rfl, ?_, ?_, ?_⟩ <;>
    norm_num [keysForwardReverse, targetSpeed, CONFIG, Player.accelerate, playerCoasting]

/-! ## C3: coasting decay -/

/-- C3 (as amended): with neither forward nor reverse held, the speed after the update is
`speed * friction`, times `driftFriction` when drift is held, times `(-0.5) ^ k` where `k`
is the number of traffic agents intersecting the player; when no agent intersects it is
exactly `speed * 0.98`, respectively `speed * 0.98 * 0.95`. -/
theorem coasting_decay (env : Env) (g : Game)
    (hw : g.player.keys.w = false) (hs : g.player.keys.s = false) :
    (Player.update env g).player.speed =
        g.player.speed * 0.98 * (if g.player.keys.space then 0.95 else 1) *
          (-0.5) ^ (g.traffic.countP (env.intersects (g.player.physics env))) ∧
    ((∀ c ∈ g.traffic, env.intersects (g.player.physics env) c = false) →
      (Player.update env g).player.speed =
        if g.player.keys.space then g.player.speed * 0.98 * 0.95 else g.player.speed * 0.98) := by
  have hsp : (g.player.physics env).speed =
      g.player.speed * 0.98 * (if g.player.keys.space then 0.95 else 1) := by
    rw [physics_speed]
    by_cases hd : g.player.keys.space = true
    · simp [Player.accelerate, Player.drift, hw, hs, hd, CONFIG]
    · simp [Player.accelerate, Player.drift, hw, hs, hd, CONFIG]
  refine ⟨?_, ?_⟩
  · rw [update_player_speed, hsp]
  · intro hno
    rw [update_player_speed, hsp, countP_eq_zero_of_no_hit _ _ hno]
    by_cases hd : g.player.keys.space = true
    · simp [hd]
    · simp [hd]

/-- Witness for C3: a coasting player at speed 1 next to a far-away agent ends at 0.98. -/
theorem coasting_decay_witness :
    (Player.update demoEnv ⟨playerCoasting, [carFar], [], true⟩).player.speed = 0.98 := by
  have h := (coasting_decay demoEnv ⟨playerCoasting, [carFar], [], true⟩ rfl rfl).2
    (by norm_num [demoEnv, playerCoasting, carFar, noKeys, Player.physics, Player.move,
          Player.steer, Player.drift, Player.accelerate, CONFIG, abs_le, lt_abs, lerp])
  simpa [playerCoasting, noKeys] using h

/-- C3 fails as stated: a coasting player at speed 1 (no key held) that intersects one
traffic agent ends the update at speed -0.49, not 1 * 0.98. -/
theorem coasting_collision_counterexample :
    playerCoasting.keys.w = false ∧ playerCoasting.keys.s = false ∧
    playerCoasting.keys.space = false ∧
    (Player.update demoEnv ⟨playerCoasting, [carA], [], true⟩).player.speed = -0.49 ∧
    (Player.update demoEnv ⟨playerCoasting, [carA], [], true⟩).player.speed ≠
      playerCoasting.speed * CONFIG.friction := by
  refine ⟨rfl, rfl, rfl, ?_, ?_⟩ <;>
    norm_num [update_player_speed, physics_speed, demoEnv, playerCoasting, carA, noKeys,
      Player.physics, Player.move, Player.steer, Player.drift, Player.accelerate, CONFIG,
      abs_le, lt_abs, lerp, List.countP_cons]

/-! ## C4: steering deadzone -/

/-- C4 (as amended): if the speed read by the steering step (the speed after acceleration and
drift, before the collision response) has `|speed| ≤ 0.1`, the steering angle left by the
update is exactly 0; so when no traffic agent intersects the player, `|speed| ≤ 0.1` in the
state left by the update implies steering angle 0. -/
theorem steering_deadzone (env : Env) (g : Game) :
    (|(g.player.physics env).speed| ≤ 0.1 → (Player.update env g).player.steering = 0) ∧
    ((∀ c ∈ g.traffic, env.intersects (g.player.physics env) c = false) →
      |(Player.update env g).player.speed| ≤ 0.1 →
      (Player.update env g).player.steering = 0) := by
  have key : |(g.player.physics env).speed| ≤ 0.1 →
      (Player.update env g).player.steering = 0 := by
    intro h
    rw [physics_speed] at h
    rw [update_player_steering, physics_steering]
    simp [Player.steer, not_lt.mpr h]
  refine ⟨key, ?_⟩
  intro hno h
  rw [update_player_speed, countP_eq_zero_of_no_hit _ _ hno] at h
  exact key (by simpa using h)

/-- Witness for C4: a player creeping at 0.05 with a left-over steering angle, no agent
near, ends the update with steering angle 0. -/
theorem steering_deadzone_witness :
    (Player.update demoEnv ⟨playerCreeping, [carFar], [], true⟩).player.steering = 0 ∧
    (Player.update demoEnv ⟨playerCreeping, [], [], true⟩).player.steering = 0 :=
  ⟨(steering_deadzone demoEnv ⟨playerCreeping, [carFar], [], true⟩).1
      (by norm_num [physics_speed, playerCreeping, Player.drift, Player.accelerate, CONFIG,
            abs_le]),
   (steering_deadzone demoEnv ⟨playerCreeping, [], [], true⟩).2
      (by simp)
      (by norm_num [update_player_speed, physics_speed, playerCreeping, Player.drift,
            Player.accelerate, CONFIG, abs_le])⟩

/-- C4 fails as stated: a player at speed 0.2 steering left that intersects one traffic agent
ends the update with speed -0.098, inside the deadzone, and steering angle 0.006. -/
theorem steering_deadzone_counterexample :
    (Player.update demoEnv ⟨playerSlowLeft, [carA], [], true⟩).player.speed = -0.098 ∧
    |(Player.update demoEnv ⟨playerSlowLeft, [carA], [], true⟩).player.speed| ≤ 0.1 ∧
    (Player.update demoEnv ⟨playerSlowLeft, [carA], [], true⟩).player.steering = 0.006 ∧
    (Player.update demoEnv ⟨playerSlowLeft, [carA], [], true⟩).player.steering ≠ 0 := by
  have hs : (Player.update demoEnv ⟨playerSlowLeft, [carA], [], true⟩).player.speed = -0.098 := by
    norm_num [update_player_speed, physics_speed, demoEnv, playerSlowLeft, carA,
      Player.physics, Player.move, Player.steer, Player.drift, Player.accelerate, CONFIG,
      abs_le, lt_abs, lerp, List.countP_cons]
  have ht : (Player.update demoEnv ⟨playerSlowLeft, [carA], [], true⟩).player.steering
      = 0.006 := by
    norm_num [update_player_steering, physics_steering, playerSlowLeft,
      Player.steer, Player.drift, Player.accelerate, CONFIG, lt_abs, lerp]
  refine ⟨hs, ?_, ht, ?_⟩
  · rw [hs]; norm_num [abs_le]
  · rw [ht]; norm_num

/-! ## C5: speed approach -/

/-- C5: with forward held, reverse and drift not held and no traffic agent intersecting the
player, one update leaves `speed = s + (T - s) * r` with `T = 3.5`, `r = 0.05` under nitro
and `T = 2.2`, `r = 0.025` otherwise; from `s = 2.0` under nitro the result is 2.075. -/
theorem speed_approach (env : Env) (g : Game)
    (hw : g.player.keys.w = true) (hs : g.player.keys.s = false)
    (hd : g.player.keys.space = false)
    (hno : ∀ c ∈ g.traffic, env.intersects (g.player.physics env) c = false) :
    (Player.update env g).player.speed =
        g.player.speed + ((if g.player.keys.shift then 3.5 else 2.2) - g.player.speed) *
          (if g.player.keys.shift then 0.05 else 0.025) ∧
    (g.player.speed = 2.0 → g.player.keys.shift = true →
      (Player.update env g).player.speed = 2.075) := by
  have hsp : (Player.update env g).player.speed =
      g.player.speed + ((if g.player.keys.shift then 3.5 else 2.2) - g.player.speed) *
        (if g.player.keys.shift then 0.05 else 0.025) := by
    rw [update_player_speed, countP_eq_zero_of_no_hit _ _ hno, physics_speed]
    by_cases hn : g.player.keys.shift = true
    · norm_num [Player.drift, Player.accelerate, targetSpeed, hw, hs, hd, hn, CONFIG]
    · norm_num [Player.drift, Player.accelerate, targetSpeed, hw, hs, hd, hn, CONFIG]
  refine ⟨hsp, ?_⟩
  intro h2 hn
  rw [hsp, h2]
  norm_num [hn]

/-- Witness for C5: speed 2.0, forward and nitro held, the only agent far away: the speed
after one update is 2.075. -/
theorem speed_approach_witness :
    (Player.update demoEnv ⟨playerNitro, [carFar], [], true⟩).player.speed = 2.075 :=
  (speed_approach demoEnv ⟨playerNitro, [carFar], [], true⟩ rfl rfl rfl
    (by norm_num [demoEnv, playerNitro, carFar, Player.physics, Player.move,
          Player.steer, Player.drift, Player.accelerate, targetSpeed, CONFIG, abs_le, lt_abs,
          lerp])).2
    (by norm_num [playerNitro]) rfl

/-! ## C6: traffic wrap -/

/-- C6: one traffic update sets an agent's `z` to exactly -2000 if `z + v > 2000` and to
`z + v` otherwise, and leaves its `x`, `y` and speed unchanged, for every agent of the
traffic list; an agent at `z = 1999.5` with speed 1.0 ends the update at `z = -2000`. -/
theorem traffic_wrap (t : Car) (traffic : List Car) (x y : ℚ) :
    (updateCar t).position.z =
        (if t.position.z + t.speed > 2000 then -2000 else t.position.z + t.speed) ∧
    (updateCar t).position.x = t.position.x ∧
    (updateCar t).position.y = t.position.y ∧
    (updateCar t).speed = t.speed ∧
    updateTraffic traffic = traffic.map (fun c =>
      { position := ⟨c.position.x, c.position.y,
          if c.position.z + c.speed > 2000 then -2000 else c.position.z + c.speed⟩,
        speed := c.speed }) ∧
    (updateCar ⟨⟨x, y, 1999.5⟩, 1.0⟩).position.z = -2000 := by
  refine ⟨rfl, rfl, rfl, rfl, rfl, ?_⟩
  norm_num [updateCar]

/-! ## Particle advance: the loop against its specification -/

theorem tick_eq_aged (p : Particle) : p.tick = p.aged := rfl

theorem advanceBody_cons_succ (x : Particle) (xs : List Particle) (i : ℕ) :
    advanceBody (i + 1) (x :: xs) = (advanceBody i xs).map (fun l => x :: l) := by
  unfold advanceBody
  simp only [List.getElem?_cons_succ]
  cases h : xs[i]? with
  | none => simp
  | some p =>
    by_cases hl : p.tick.life ≤ 0
    · simp [hl]
    · simp [hl]

theorem advanceBody_append (l : List Particle) (a : Particle) (suf : List Particle) :
    advanceBody l.length (l ++ a :: suf) =
      some (l ++ (if a.tick.life ≤ 0 then suf else a.tick :: suf)) := by
  induction l with
  | nil =>
    by_cases hl : a.tick.life ≤ 0
    · simp [advanceBody, hl]
    · simp [advanceBody, hl]
  | cons x xs ih =>
    simp only [List.length_cons, List.cons_append]
    rw [advanceBody_cons_succ, ih]
    simp

theorem advanceSpec_nil : advanceSpec [] = [] := rfl

theorem advanceSpec_append (l1 l2 : List Particle) :
    advanceSpec (l1 ++ l2) = advanceSpec l1 ++ advanceSpec l2 := by
  simp [advanceSpec]

theorem advanceSpec_singleton (a : Particle) :
    advanceSpec [a] = if a.tick.life ≤ 0 then [] else [a.tick] := by
  by_cases hl : a.tick.life ≤ 0
  · have h2 : ¬ (0 < a.aged.life) := by rw [← tick_eq_aged]; exact not_lt.mpr hl
    simp [advanceSpec, hl, h2]
  · have h2 : 0 < a.aged.life := by rw [← tick_eq_aged]; exact not_le.mp hl
    simp [advanceSpec, h2, tick_eq_aged, not_le.mpr h2]

theorem advanceRun_zero_index (fuel : ℕ) (l : List Particle) :
    advanceRun fuel 0 l = some (0, l) := by
  cases fuel <;> rfl

/-- Running the loop over the block `mid` of unprocessed entries, above the untouched `pre`
and below the already processed `suf`, ages and filters exactly `mid`. -/
theorem advanceRun_block (mid : List Particle) :
    ∀ (pre suf : List Particle) (extra : ℕ),
      advanceRun (mid.length + extra) (pre ++ mid).length (pre ++ mid ++ suf) =
        advanceRun extra pre.length (pre ++ advanceSpec mid ++ suf) := by
  induction mid using List.reverseRecOn with
  | nil =>
    intro pre suf extra
    simp [advanceSpec_nil]
  | append_singleton m a ih =>
    intro pre suf extra
    have hfuel : (m ++ [a]).length + extra = (m.length + extra) + 1 := by
      simp; omega
    have hidx : (pre ++ (m ++ [a])).length = (pre ++ m).length + 1 := by
      simp; omega
    have hlist : pre ++ (m ++ [a]) ++ suf = (pre ++ m) ++ a :: suf := by simp
    rw [hfuel, hidx, hlist]
    simp only [advanceRun]
    rw [advanceBody_append]
    simp only []
    rw [advanceSpec_append, advanceSpec_singleton]
    have := ih pre (if a.tick.life ≤ 0 then suf else a.tick :: suf) extra
    by_cases hl : a.tick.life ≤ 0
    · simp only [hl, if_true] at this ⊢
      simpa using this
    · simp only [hl, if_false] at this ⊢
      simpa using this

theorem advanceRun_full (l : List Particle) (extra : ℕ) :
    advanceRun (l.length + extra) l.length l = some (0, advanceSpec l) := by
  have h := advanceRun_block l [] [] extra
  simp only [List.nil_append, List.append_nil, List.length_nil] at h
  rw [h, advanceRun_zero_index]

theorem advance_eq_spec (l : List Particle) : advance l = some (advanceSpec l) := by
  have h := advanceRun_full l 0
  simp only [Nat.add_zero] at h
  simp [advance, h]

theorem advanceSpec_length_le (l : List Particle) : (advanceSpec l).length ≤ l.length := by
  unfold advanceSpec
  exact (List.length_filter_le _ _).trans (by simp)

/-- Every state the loop passes through exists (no iteration reads a missing entry) and
holds no more particles than the pass started with. -/
theorem advanceRun_total (l : List Particle) (fuel : ℕ) :
    ∃ i l2, advanceRun fuel l.length l = some (i, l2) ∧ l2.length ≤ l.length := by
  by_cases hf : l.length ≤ fuel
  · obtain ⟨extra, rfl⟩ := Nat.exists_eq_add_of_le hf
    exact ⟨0, advanceSpec l, advanceRun_full l extra, advanceSpec_length_le l⟩
  · have hlt : fuel < l.length := Nat.lt_of_not_le hf
    have h := advanceRun_block (l.drop (l.length - fuel)) (l.take (l.length - fuel)) [] 0
    have hlen : (l.drop (l.length - fuel)).length = fuel := by
      simp; omega
    rw [List.take_append_drop, hlen] at h
    simp only [Nat.add_zero, List.append_nil, advanceRun] at h
    refine ⟨_, _, h, ?_⟩
    have h1 := advanceSpec_length_le (l.drop (l.length - fuel))
    have h2 : (l.take (l.length - fuel)).length + (l.drop (l.length - fuel)).length
        = l.length := by
      rw [← List.length_append, List.take_append_drop]
    rw [List.length_append]
    omega

theorem advancePasses_eq (n : ℕ) (l : List Particle) :
    advancePasses n l = some (advanceSpec^[n] l) := by
  induction n generalizing l with
  | zero => rfl
  | succ k ih =>
    simp only [advancePasses, advance_eq_spec, Function.iterate_succ_apply]
    exact ih _

theorem advanceSpec_iterate_append (n : ℕ) (l1 l2 : List Particle) :
    advanceSpec^[n] (l1 ++ l2) = advanceSpec^[n] l1 ++ advanceSpec^[n] l2 := by
  induction n generalizing l1 l2 with
  | zero => rfl
  | succ k ih =>
    simp only [Function.iterate_succ_apply, advanceSpec_append]
    exact ih _ _

theorem aged_iterate_life (n : ℕ) (q : Particle) :
    (Particle.aged^[n] q).life = q.life - n * 0.05 := by
  induction n with
  | zero => simp
  | succ k ih =>
    rw [Function.iterate_succ_apply', Particle.aged, ih]
    push_cast
    ring

theorem advanceSpec_iterate_alive (n : ℕ) (q : Particle) (h : 0 < q.life - n * 0.05) :
    advanceSpec^[n] [q] = [Particle.aged^[n] q] := by
  induction n with
  | zero => rfl
  | succ k ih =>
    have hk : 0 < q.life - k * 0.05 := by
      push_cast at h
      linarith
    rw [Function.iterate_succ_apply', ih hk, Function.iterate_succ_apply']
    have hlife : 0 < (Particle.aged^[k] q).aged.life := by
      have := aged_iterate_life (k + 1) q
      rw [Function.iterate_succ_apply'] at this
      rw [this]
      exact h
    simp [advanceSpec, hlife]

/-! ## C8: the advance pass is safe under same-pass removal -/

/-- C8: one advance pass (the backward index loop with in-place splice) runs to its exit
without reading a missing entry and yields exactly the list obtained by ageing every
particle once (life less 0.05, position plus velocity) and keeping, in their original order,
those whose new life is above 0. -/
theorem advance_refines_spec (particles : List Particle) (extra fuel : ℕ) :
    advance particles =
        some ((particles.map Particle.aged).filter (fun p => decide (0 < p.life))) ∧
    advanceRun (particles.length + extra) particles.length particles =
        some (0, advanceSpec particles) ∧
    (∃ i l, advanceRun fuel particles.length particles = some (i, l)) ∧
    (∀ p : Particle, p.aged.life = p.life - 0.05 ∧
        p.aged.position = p.position.add p.velocity) ∧
    (advanceSpec particles).Sublist (particles.map Particle.aged) := by
  refine ⟨advance_eq_spec particles, advanceRun_full particles extra, ?_, ?_, ?_⟩
  · obtain ⟨i, l, h, _⟩ := advanceRun_total particles fuel
    exact ⟨i, l, h⟩
  · intro p
    exact ⟨rfl, rfl⟩
  · exact List.filter_sublist _

/-! ## C7: particle lifetime -/

/-- C7: a particle pushed by `spawnParticle` (life 1.0) is still in the active list, as its
last entry and aged `n` times, after each of its first 19 advance passes (here `n < 20`),
with life `1 - n * 0.05 > 0`; its 20th advance pass removes it, leaving the list as it would
be had the particle never been spawned. -/
theorem particle_lifetime (particles : List Particle) (pos : Vec3) (color : ℕ) (scale : ℚ)
    (velocity : Vec3) (n : Fin 20) :
    (newParticle pos color scale velocity).life = 1.0 ∧
    advancePasses n (spawnParticle particles pos color scale velocity) =
        (advancePasses n particles).map
          (fun l => l ++ [Particle.tick^[n] (newParticle pos color scale velocity)]) ∧
    (Particle.tick^[n] (newParticle pos color scale velocity)).life = 1 - n * 0.05 ∧
    0 < (Particle.tick^[n] (newParticle pos color scale velocity)).life ∧
    advancePasses 20 (spawnParticle particles pos color scale velocity) =
        advancePasses 20 particles ∧
    advancePasses 19 (spawnParticle [] pos color scale velocity) =
        some [Particle.tick^[19] (newParticle pos color scale velocity)] ∧
    advancePasses 20 (spawnParticle [] pos color scale velocity) = some [] := by
  have htick : Particle.tick = Particle.aged := funext tick_eq_aged
  have hlife1 : (newParticle pos color scale velocity).life = 1 := by
    norm_num [newParticle]
  have hn : ((n : ℕ) : ℚ) ≤ 19 := by
    have : (n : ℕ) ≤ 19 := by omega
    exact_mod_cast this
  have halive : ∀ k : ℕ, (k : ℚ) ≤ 19 →
      0 < (newParticle pos color scale velocity).life - k * 0.05 := by
    intro k hk
    rw [hlife1]
    norm_num
    linarith
  have h19 : advanceSpec^[19] [newParticle pos color scale velocity] =
      [Particle.aged^[19] (newParticle pos color scale velocity)] := by
    have := advanceSpec_iterate_alive 19 (newParticle pos color scale velocity)
      (halive 19 (by norm_num))
    exact this
  have h20 : advanceSpec^[20] [newParticle pos color scale velocity] = [] := by
    rw [Function.iterate_succ_apply', h19]
    have hl := aged_iterate_life 20 (newParticle pos color scale velocity)
    rw [Function.iterate_succ_apply', hlife1] at hl
    have hdead : (Particle.aged^[19] (newParticle pos color scale velocity)).tick.life ≤ 0 := by
      rw [tick_eq_aged, hl]; norm_num
    rw [advanceSpec_singleton, if_pos hdead]
  refine ⟨by norm_num [newParticle], ?_, ?_, ?_, ?_, ?_, ?_⟩
  · rw [advancePasses_eq, advancePasses_eq, spawnParticle, advanceSpec_iterate_append,
      advanceSpec_iterate_alive _ _ (halive n hn), htick]
    rfl
  · rw [htick, aged_iterate_life, hlife1]
  · rw [htick, aged_iterate_life]
    exact halive n hn
  · rw [advancePasses_eq, advancePasses_eq, spawnParticle, advanceSpec_iterate_append, h20]
    simp
  · rw [advancePasses_eq, spawnParticle, htick, List.nil_append, h19]
  · rw [advancePasses_eq, spawnParticle, List.nil_append, h20]

/-! ## C9: speed bound -/

theorem accelerate_bound (B : ℚ) (p : Player) (hB : 2.2 ≤ B)
    (hn : p.keys.shift = true → 3.5 ≤ B) (h : |p.speed| ≤ B) :
    |p.accelerate.speed| ≤ B := by
  obtain ⟨pos, speed, st, rot, ⟨w, s, a, d, shift, space⟩⟩ := p
  simp only at hn h
  rw [abs_le] at h
  obtain ⟨h1, h2⟩ := h
  cases w <;> cases s <;> cases shift <;>
    norm_num [Player.accelerate, targetSpeed, CONFIG] at hn ⊢ <;>
    rw [abs_le] <;> norm_num at hB <;> constructor <;> linarith

theorem drift_bound (p : Player) : |p.drift.speed| ≤ |p.speed| := by
  unfold Player.drift
  split
  · simp only [CONFIG, abs_mul]
    have h0 := abs_nonneg p.speed
    have h1 : |(0.95 : ℚ)| = 0.95 := by norm_num [abs_of_pos]
    rw [h1]
    linarith
  · exact le_refl _

theorem bounce_bound (s : ℚ) (k : ℕ) : |s * (-0.5) ^ k| ≤ |s| := by
  rw [abs_mul, abs_pow]
  have h1 : |(-0.5 : ℚ)| = 0.5 := by norm_num [abs_of_pos]
  rw [h1]
  have h2 : (0.5 : ℚ) ^ k ≤ 1 := pow_le_one₀ (by norm_num) (by norm_num)
  exact mul_le_of_le_one_right (abs_nonneg s) h2

theorem update_speed_bound (B : ℚ) (env : Env) (g : Game) (hB : 2.2 ≤ B)
    (hn : g.player.keys.shift = true → 3.5 ≤ B) (h : |g.player.speed| ≤ B) :
    |(Player.update env g).player.speed| ≤ B := by
  rw [update_player_speed, physics_speed]
  exact (bounce_bound _ _).trans
    ((drift_bound _).trans (accelerate_bound B g.player hB hn h))

theorem runUpdates_bound (B : ℚ) (hB : 2.2 ≤ B) (calls : List UpdateCall)
    (hn : ∀ c ∈ calls, c.keys.shift = true → 3.5 ≤ B) :
    ∀ p : Player, |p.speed| ≤ B → |(runUpdates p calls).speed| ≤ B := by
  induction calls with
  | nil => intro p h; exact h
  | cons c cs ih =>
    intro p h
    simp only [runUpdates]
    apply ih (fun c2 hc2 => hn c2 (List.mem_cons_of_mem _ hc2))
    apply update_speed_bound B c.env _ hB
    · exact hn c (List.mem_cons_self _ _)
    · exact h

/-- C9: in every state reached from the constructor state (speed 0) by any sequence of
`Player.update` calls, with any keys, any traffic and any intersections in each call,
`|speed| ≤ 3.5`; and if nitro is held in none of the calls, `|speed| ≤ 2.2`. -/
theorem speed_bound (calls : List UpdateCall) :
    Player.init.speed = 0 ∧
    |(runUpdates Player.init calls).speed| ≤ 3.5 ∧
    ((∀ c ∈ calls, c.keys.shift = false) → |(runUpdates Player.init calls).speed| ≤ 2.2) := by
  refine ⟨rfl, ?_, ?_⟩
  · apply runUpdates_bound 3.5 (by norm_num) calls (fun _ _ _ => le_refl _)
    norm_num [Player.init]
  · intro hno
    apply runUpdates_bound 2.2 (le_refl _) calls
    · intro c hc hs
      rw [hno c hc] at hs
      exact absurd hs (by decide)
    · norm_num [Player.init]

/-- Witness for C9: two calls with forward held and no nitro, one of them into an
intersecting agent, keep `|speed| ≤ 2.2`. -/
theorem speed_bound_witness :
    |(runUpdates Player.init
        [⟨⟨true, false, false, false, false, false⟩, demoEnv, [carFar], []⟩,
         ⟨⟨true, false, false, false, false, true⟩, demoEnv, [carA], []⟩]).speed| ≤ 2.2 :=
  (speed_bound
      [⟨⟨true, false, false, false, false, false⟩, demoEnv, [carFar], []⟩,
       ⟨⟨true, false, false, false, false, true⟩, demoEnv, [carA], []⟩]).2.2
    (by simp)

/-! ## C10: the particle pool is bounded -/

theorem emit_eq (env : Env) (p : Player) (l : List Particle) :
    p.emit env l = l ++
      ((if p.keys.shift = true ∧ |p.speed| > 0.5 then
          [newParticle (env.toWorld p ⟨0.8, 0.6, -2.5⟩) 0x00ffff 0.4 ⟨0, 0, 0⟩,
           newParticle (env.toWorld p ⟨-0.8, 0.6, -2.5⟩) 0x00ffff 0.4 ⟨0, 0, 0⟩]
        else []) ++
       (if p.keys.space = true ∧ |p.speed| > 1.0 then
          [newParticle (env.toWorld p ⟨0, 0, -1.5⟩) 0xffffff 0.3 ⟨0, 0.1, 0⟩]
        else [])) := by
  unfold Player.emit
  simp only [Player.exhausts, List.foldl, spawnParticle]
  split_ifs <;> simp

theorem newParticle_life (pos : Vec3) (color : ℕ) (scale : ℚ) (velocity : Vec3) :
    (newParticle pos color scale velocity).life = 1 := by
  norm_num [newParticle]

theorem emit_spec (env : Env) (p : Player) (l : List Particle) :
    ∃ fresh : List Particle, p.emit env l = l ++ fresh ∧ fresh.length ≤ 3 ∧
      ∀ q ∈ fresh, q.life = 1 := by
  refine ⟨_, emit_eq env p l, ?_, ?_⟩
  · split_ifs <;> simp
  · intro q hq
    rw [List.mem_append] at hq
    rcases hq with hq | hq
    · split_ifs at hq
      · simp only [List.mem_cons, List.mem_singleton, List.not_mem_nil, or_false] at hq
        rcases hq with rfl | rfl <;> exact newParticle_life _ _ _ _
      · simp at hq
    · split_ifs at hq
      · simp only [List.mem_singleton] at hq
        rw [hq]
        exact newParticle_life _ _ _ _
      · simp at hq

theorem poolInv_nil : PoolInv [] := by
  constructor
  · intro p hp; simp at hp
  · intro k _; simp

theorem poolInv_length (l : List Particle) (h : PoolInv l) : l.length ≤ 57 := by
  have h0 := h.2 0 (by omega)
  have hall : l.countP (fun p => decide (((0 : ℕ) : ℚ) / 20 < p.life)) = l.length := by
    rw [List.countP_eq_length]
    intro p hp
    simpa using h.1 p hp
  rw [hall] at h0
  omega

theorem poolInv_step (l fresh : List Particle) (h : PoolInv l) (hlen : fresh.length ≤ 3)
    (hlife : ∀ q ∈ fresh, q.life = 1) : PoolInv (advanceSpec (l ++ fresh)) := by
  constructor
  · intro p hp
    unfold advanceSpec at hp
    have := (List.mem_filter.mp hp).2
    simpa using this
  · intro k hk
    have hmono : (advanceSpec (l ++ fresh)).countP (fun p => decide ((k : ℚ) / 20 < p.life)) ≤
        (l ++ fresh).countP (fun p => decide (((k + 1 : ℕ) : ℚ) / 20 < p.life)) := by
      unfold advanceSpec
      rw [List.countP_filter, List.countP_map]
      apply List.countP_mono_left
      intro p _ hp
      simp only [Function.comp, Bool.and_eq_true, decide_eq_true_eq, Particle.aged] at hp ⊢
      have := hp.1
      push_cast
      norm_num at this ⊢
      linarith
    refine hmono.trans ?_
    rw [List.countP_append]
    by_cases hk2 : k + 1 ≤ 19
    · have h1 := h.2 (k + 1) hk2
      have h2 : fresh.countP (fun p => decide (((k + 1 : ℕ) : ℚ) / 20 < p.life)) ≤ fresh.length :=
        List.countP_le_length _
      omega
    · have hk19 : k = 19 := by omega
      subst hk19
      have h1 : l.countP (fun p => decide (((19 + 1 : ℕ) : ℚ) / 20 < p.life)) ≤
          l.countP (fun p => decide (((19 : ℕ) : ℚ) / 20 < p.life)) := by
        apply List.countP_mono_left
        intro p _ hp
        simp only [decide_eq_true_eq] at hp ⊢
        push_cast at hp ⊢
        linarith
      have h2 := h.2 19 (le_refl _)
      have h3 : fresh.countP (fun p => decide (((19 + 1 : ℕ) : ℚ) / 20 < p.life)) = 0 := by
        rw [List.countP_eq_zero]
        intro q hq
        simp only [decide_eq_true_eq]
        rw [hlife q hq]
        norm_num
      omega

theorem animate_eq (env : Env) (g : Game) :
    animate env g = some (if g.gameStarted then
      { Player.update env g with
          traffic := updateTraffic (Player.update env g).traffic,
          particles := advanceSpec (Player.update env g).particles }
      else g) := by
  unfold animate
  by_cases hs : g.gameStarted = true
  · simp only [hs, if_true, advance_eq_spec]
  · simp only [hs, if_false]
    rfl

theorem update_particles (env : Env) (g : Game) :
    (Player.update env g).particles = (g.player.physics env).emit env g.particles := rfl

theorem animate_poolInv (env : Env) (g : Game) (h : PoolInv g.particles) :
    ∃ g2, animate env g = some g2 ∧ PoolInv g2.particles := by
  refine ⟨_, animate_eq env g, ?_⟩
  by_cases hs : g.gameStarted = true
  · simp only [hs, if_true]
    rw [update_particles]
    obtain ⟨fresh, he, hlen, hlife⟩ := emit_spec env (g.player.physics env) g.particles
    rw [he]
    exact poolInv_step _ _ h hlen hlife
  · simp only [hs, if_false]
    exact h

theorem runFrames_poolInv (ticks : List Tick) :
    ∀ g : Game, PoolInv g.particles →
      ∃ g2, runFrames g ticks = some g2 ∧ PoolInv g2.particles := by
  induction ticks with
  | nil => intro g h; exact ⟨g, rfl, h⟩
  | cons t ts ih =>
    intro g h
    obtain ⟨g1, h1, hinv⟩ := animate_poolInv t.env (g.input t) h
    obtain ⟨g2, h2, hinv2⟩ := ih g1 hinv
    refine ⟨g2, ?_, hinv2⟩
    simp only [runFrames, h1]
    exact h2

/-- C10: from an empty pool, after any sequence of frames (any keys, any start clicks, any
library behaviour) the frames all complete and the active particle list holds at most 60
particles; so does the list after the next `Player.update`, which adds at most 3, and so
does every list the following advance pass goes through. -/
theorem particle_pool_bounded (p : Player) (traffic : List Car) (started : Bool)
    (ticks : List Tick) (next : Tick) (fuel : ℕ) :
    ∃ g, runFrames ⟨p, traffic, [], started⟩ ticks = some g ∧
      g.particles.length ≤ 60 ∧
      (Player.update next.env (g.input next)).particles.length ≤ g.particles.length + 3 ∧
      (Player.update next.env (g.input next)).particles.length ≤ 60 ∧
      ∃ i l, advanceRun fuel (Player.update next.env (g.input next)).particles.length
          (Player.update next.env (g.input next)).particles = some (i, l) ∧ l.length ≤ 60 := by
  obtain ⟨g, hrun, hinv⟩ := runFrames_poolInv ticks ⟨p, traffic, [], started⟩ poolInv_nil
  have h57 := poolInv_length _ hinv
  obtain ⟨fresh, he, hlen, _⟩ :=
    emit_spec next.env ((g.input next).player.physics next.env) (g.input next).particles
  have hup : (Player.update next.env (g.input next)).particles.length ≤
      g.particles.length + 3 := by
    rw [update_particles, he, List.length_append]
    have : (g.input next).particles = g.particles := rfl
    rw [this]
    omega
  obtain ⟨i, l, hrun2, hl⟩ :=
    advanceRun_total (Player.update next.env (g.input next)).particles fuel
  exact ⟨g, hrun, by omega, hup, by omega, i, l, hrun2, by omega⟩

end Velocity3D
